/-
Verification of the Multi-resolution-Energy-Forecasting repository
(src/benchmarks.py, src/torchlaplace/dataset.py, src/example.py).

Tensors of shape (N, T, D) are embedded as `List (List (List ℚ))`
(trajectory-major, then time, then channel).  Machine floats are embedded
as exact rationals, except where a claim depends on the exact binary64
behaviour of `int(0.8 * N)` / `int(0.9 * N)`: there the IEEE-754
round-to-nearest-even multiplication is modelled exactly over ℕ.
Transcendental functions (tanh, sin, the GRU/LSTM cells) and the library
RNG draws are kept as explicit oracle parameters: the Python code treats
them as opaque learned / random values, and no claim depends on their
numeric values.  `torchdiffeq.odeint_adjoint` is an external library; each
model `forward` takes the integrator as an explicit function argument
(initial batch, flattened query times ↦ time-major trajectory), the
interface the source calls it through.
-/
import Mathlib

/-! # Generic list helpers (shapes, slicing, batching) -/

/-- Python slice `l[a:b]` for `0 ≤ a ≤ b` (clamping semantics; for `a > b`
Python gives `[]`, and `b - a = 0` in ℕ gives the same). -/
def pySlice (l : List α) (a b : Nat) : List α :=
  (l.drop a).take (b - a)

/-- Select the channels listed in `idxs` from one channel row
(`row[idxs]` fancy indexing; callers only pass in-range channel indices). -/
def selectIdx (row : List α) (idxs : List Nat) : List α :=
  idxs.filterMap fun i => row[i]?

/-- `l[idxs]` integer-array indexing along the first axis. -/
def reindex (idxs : List Nat) (l : List α) : List α :=
  idxs.filterMap fun i => l[i]?

/-- Split `l` into consecutive chunks of size `n` (last chunk may be
shorter): the batching of a sequential PyTorch sampler with
`drop_last=False`.  `n = 0` is rejected by `DataLoader` itself. -/
def chunksOf (n : Nat) (l : List α) : List (List α) :=
  if n = 0 then []
  else (List.range ((l.length + n - 1) / n)).map fun i => (l.drop (i * n)).take n

/-- `x.shape == (n, t, d)` for a 3-dimensional tensor embedded as nested
lists (checks rectangularity as well, since nested lists carry no shape
metadata of their own). -/
def hasShape3 (x : List (List (List α))) (n t d : Nat) : Bool :=
  x.length == n && x.all fun tr => tr.length == t && tr.all fun row => row.length == d

/-- `shape[2]` of a (rectangular) 3-dimensional tensor: torch keeps this as
metadata; in the list embedding we read it off the first element. -/
def dim3 (x : List (List (List α))) : Nat :=
  ((x.headD []).headD []).length

/-- Elements `l[0], l[n], l[2n], ...` — Python `l[::n]`. -/
def everyNth (n : Nat) (l : List α) : List α :=
  (l.enum.filter fun p => p.1 % n == 0).map (·.2)

/-- Consecutive differences `torch.diff`. -/
def diffs (l : List ℚ) : List ℚ :=
  (l.zip l.tail).map fun p => p.2 - p.1

/-- `torch.linspace a b steps` (values in exact arithmetic). -/
def linspace (a b : ℚ) (steps : Nat) : List ℚ :=
  if steps = 1 then [a]
  else (List.range steps).map fun (i : Nat) => a + ((i : ℚ) * (b - a)) / ((steps : ℚ) - 1)

/-- Mean of a list of rationals (`np.nanmean` on NaN-free data). -/
def listMean (l : List ℚ) : ℚ := l.sum / (l.length : ℚ)

/-! # Exact binary64 model of `int(c * N)` for the split constants

`int(0.8 * trajectories.shape[0])` multiplies the binary64 constant `0.8`
by the (exactly converted, for `N < 2^53`) integer `N`, rounds the product
to nearest-even binary64 and truncates.  `0.8 = c08 · 2⁻⁵³` and
`0.9 = c09 · 2⁻⁵³` exactly, where `c08`/`c09` are the 53-bit significands
below. -/

/-- Round `P / 2^s` to the nearest integer, ties to even (`s ≥ 1`). -/
def roundNearEven (P s : Nat) : Nat :=
  if 2 ^ s / 2 < P % 2 ^ s ∨ (P % 2 ^ s = 2 ^ s / 2 ∧ (P / 2 ^ s) % 2 = 1) then
    P / 2 ^ s + 1
  else P / 2 ^ s

/-- Significand of the binary64 value `0.8` at scale `2⁻⁵³`. -/
def c08 : Nat := 7205759403792794

/-- Significand of the binary64 value `0.9` at scale `2⁻⁵³`. -/
def c09 : Nat := 8106479329266893

/-- `⌊log₂ P⌋ - 52` for `2^53 ≤ P < 2^1076` (the number of significand
bits to shave off), found by bounded search: beyond `2^1076` the binary64
product would overflow to `+inf` and `int()` would raise, and trajectory
counts are nowhere near. -/
def fpExp (P : Nat) : Nat :=
  (((List.range 1024).find? fun s =>
      Nat.ble (2 ^ (s + 52)) P && Nat.blt P (2 ^ (s + 53))).getD 0)

/-- `int(c·2⁻⁵³ * N)` in binary64 arithmetic: the exact product `c·N·2⁻⁵³`
is rounded to a 53-bit significand (round to nearest, ties to even) and the
result truncated to an integer.  Faithful for `0 ≤ N < 2^53`, i.e. any
in-memory trajectory count. -/
def fpInt (c N : Nat) : Nat :=
  if c * N < 2 ^ 53 then 0
  else roundNearEven (c * N) (fpExp (c * N)) * 2 ^ fpExp (c * N) / 2 ^ 53

/-! # src/torchlaplace/dataset.py -/

/-- Channel-role dictionary returned by each dataset generator. -/
structure Feature where
  hist_feature : List Nat
  fcst_feature : List Nat
  avail_fcst_feature : Option (List Nat)
deriving DecidableEq

/-- The `available_forecasts` slot of one dataset sample: either the scalar
placeholder `torch.tensor(torch.nan)` (when the dataset exposes no
externally known forecasts) or a `(time, feature)` slice of the trajectory.
The model's trajectory entries are NaN-free rationals, so NaN can only
arise from the scalar placeholder. -/
inductive AvailSlot where
  | scalarNan : AvailSlot
  | mat : List (List ℚ) → AvailSlot
deriving DecidableEq

/-- Whether a slot is the scalar NaN placeholder. -/
def AvailSlot.isNan : AvailSlot → Bool
  | .scalarNan => true
  | .mat _ => false

/-- The matrix payload of a slot (placeholder: empty). -/
def AvailSlot.matD : AvailSlot → List (List ℚ)
  | .scalarNan => []
  | .mat m => m

/-- `torch.stack` of the per-sample `available_forecasts` slots followed by
the NaN filter and reshape of `collate_fn`:
stacking `B` scalar-NaN placeholders gives a `(B,)` all-NaN vector whose
elements are all removed by `available_forecasts[~isnan]`, so `numel == 0`
and the field becomes `None`; stacking `B` NaN-free `(T', F)` slices keeps
every element and the `reshape(B, -1, F)` restores the `(B, T', F)` layout
(`None` only if it has zero elements).  Mixed slots cannot be stacked. -/
def stackAvail (slots : List AvailSlot) : Except String (Option (List (List (List ℚ)))) :=
  if slots.all AvailSlot.isNan then .ok none
  else if slots.any AvailSlot.isNan then
    .error "stack expects each tensor to be equal size"
  else
    let af := slots.map AvailSlot.matD
    if (af.map fun m => (m.map List.length).sum).sum = 0 then .ok none else .ok (some af)

/-- One `TimeSeriesDataset.__getitem__` result (the 5-tuple). -/
structure Sample where
  observed : List (List ℚ)
  toPredict : List (List ℚ)
  avail : AvailSlot
  tpToPredict : List (List ℚ)
  observedTp : List (List ℚ)
deriving DecidableEq

/-- `torch.nn.functional.avg_pool1d` with kernel = stride = `k` on one row. -/
def avgPool1d (k : Nat) (l : List ℚ) : List ℚ :=
  (List.range (l.length / k)).map fun i => ((l.drop (i * k)).take k).sum / (k : ℚ)

/-- The `transpose(1,2) → avg_pool1d(k,k) → transpose(1,2)` aggregation of
one `(T, C)` trajectory slice (per-channel block averaging). -/
def poolRows (k : Nat) (rows : List (List ℚ)) : List (List ℚ) :=
  (rows.transpose.map (avgPool1d k)).transpose

structure TimeSeriesDataset where
  observed_data : List (List (List ℚ))
  data_to_predict : List (List (List ℚ))
  tp_to_predict : List (List ℚ)
  observed_tp : List (List ℚ)
  avail_fcst : Bool
  available_forecasts : Option (List (List (List ℚ)))

/-- `TimeSeriesDataset.__init__`.  Every generator hands over `time_steps`
as a `(1, T)` tensor, so the `len(shape) < 2 → unsqueeze(0)` guard is a
no-op here.  For `avg_terms > 1` the `[..., None] / transpose / pool /
transpose / squeeze().unsqueeze(0)` dance on the `(1, T)` time tensors
block-averages the single time row. -/
def TimeSeriesDataset.init (trajs : List (List (List ℚ))) (time_steps : List (List ℚ))
    (observe_steps : Nat) (avg_terms : Nat) (hist_feature fcst_feature : List Nat)
    (avail_fcst_feature : Option (List Nat)) : TimeSeriesDataset :=
  let observed_data :=
    trajs.map fun tr => (tr.take observe_steps).map fun row => selectIdx row hist_feature
  let data_to_predict :=
    trajs.map fun tr => (tr.drop observe_steps).map fun row => selectIdx row fcst_feature
  let tp_to_predict := time_steps.map fun row => row.drop observe_steps
  let observed_tp := time_steps.map fun row => row.take observe_steps
  let available_forecasts :=
    avail_fcst_feature.map fun ix =>
      trajs.map fun tr => (tr.drop observe_steps).map fun row => selectIdx row ix
  if 1 < avg_terms then
    { observed_data := observed_data.map (poolRows avg_terms)
      data_to_predict := data_to_predict.map (poolRows avg_terms)
      tp_to_predict := tp_to_predict.map (avgPool1d avg_terms)
      observed_tp := observed_tp.map (avgPool1d avg_terms)
      avail_fcst := avail_fcst_feature.isSome
      available_forecasts := available_forecasts }
  else
    { observed_data := observed_data
      data_to_predict := data_to_predict
      tp_to_predict := tp_to_predict
      observed_tp := observed_tp
      avail_fcst := avail_fcst_feature.isSome
      available_forecasts := available_forecasts }

/-- `TimeSeriesDataset.__len__`. -/
def TimeSeriesDataset.len (ds : TimeSeriesDataset) : Nat := ds.observed_data.length

/-- `TimeSeriesDataset.__getitem__` (`self.avail_fcst` is set exactly when
`available_forecasts` was stored; out-of-range indices raise in Python and
are never produced by the loader). -/
def TimeSeriesDataset.getItem (ds : TimeSeriesDataset) (index : Nat) : Sample :=
  { observed := ds.observed_data.getD index []
    toPredict := ds.data_to_predict.getD index []
    avail := match ds.available_forecasts with
      | some af => AvailSlot.mat (af.getD index [])
      | none => AvailSlot.scalarNan
    tpToPredict := ds.tp_to_predict
    observedTp := ds.observed_tp }

/-- The batch dictionary assembled by `collate_fn`.  The mask and label
fields are never populated anywhere in the pipeline, hence `Option Unit`. -/
structure Batch where
  observed_data : List (List (List ℚ))
  data_to_predict : List (List (List ℚ))
  available_forecasts : Option (List (List (List ℚ)))
  observed_tp : List (List ℚ)
  tp_to_predict : List (List ℚ)
  observed_mask : Option Unit
  mask_predicted_data : Option Unit
  labels : Option Unit
  mode : String
deriving DecidableEq

/-- `collate_fn`.  `zip(*data)` on an empty sample list fails to unpack
(and `torch.stack` of zero tensors raises), hence the error case; the
loader always hands over at least one sample. -/
def collate_fn (data : List Sample) : Except String Batch :=
  match data with
  | [] => Except.error "not enough values to unpack"
  | s0 :: _ => do
    let available_forecasts ← stackAvail (data.map (·.avail))
    Except.ok
      { observed_data := data.map (·.observed)
        data_to_predict := data.map (·.toPredict)
        available_forecasts := available_forecasts
        observed_tp := s0.observedTp
        tp_to_predict := s0.tpToPredict
        observed_mask := none
        mask_predicted_data := none
        labels := none
        mode := "extrap" }

/-- `torch.utils.data.DataLoader` as built by `generate_data_set`: the
dataset's samples (materialised in index order), the batch size, the
`shuffle` flag and the collate function. -/
structure DataLoader where
  dataset : List Sample
  batch_size : Nat
  shuffle : Bool
  collate : List Sample → Except String Batch

/-- One full pass over a loader.  `perm` is the permutation the sampler
would draw for this epoch: PyTorch's `RandomSampler` (used when
`shuffle=True`) draws a fresh one per epoch, `SequentialSampler` (when
`shuffle=False`) ignores it and yields `0, 1, 2, ...`. -/
def DataLoader.epochBatches (dl : DataLoader) (perm : List Nat) : List (Except String Batch) :=
  (chunksOf dl.batch_size (if dl.shuffle then reindex perm dl.dataset else dl.dataset)).map
    dl.collate

/-- What one dataset generator returns: trajectories, the `(1, T)` time
tensor, the sample rate and the channel-role dictionary. -/
structure RawData where
  trajectories : List (List (List ℚ))
  t : List (List ℚ)
  sample_rate : ℚ
  features : Feature

/-- The binary64 value of `np.pi` (= `torch.pi`). -/
def np_pi : ℚ := 884279719003555 / 281474976710656

/-- The `sine` toy generator.  `sinq` is the binary64 `torch.sin` oracle;
the `double` flag selects float32/float64 and is numerically irrelevant in
the exact embedding.  Note the `t_nsamples` argument is immediately
shadowed by `t_nsamples = int(t_nsamples_ref / 4 * num_pi)` (the division
`1000 / 4 = 250.0` is exact in binary64, so the `int` is exactly
`250 * num_pi` for any realistic `num_pi`).  The trailing
`y.view(trajectories_to_sample, -1, 1)` wraps each scalar in its own
channel row.  `torch.stack` would raise for zero trajectories; callers
sample at least one. -/
def sine (sinq : ℚ → ℚ) (double : Bool) (trajectories_to_sample : Nat := 100)
    (t_nsamples : Nat := 200) (num_pi : Nat := 4) : RawData :=
  let t_nsamples_ref := 1000
  let t_nsamples := t_nsamples_ref / 4 * num_pi
  let t_end := (num_pi : ℚ) * np_pi
  let t_begin := t_end / (t_nsamples : ℚ)
  let ti := linspace t_begin t_end t_nsamples
  let sampler : ℚ → ℚ → ℚ := fun t x0 =>
    sinq (t + x0) + sinq (2 * (t + x0)) + (1 / 2 : ℚ) * sinq (12 * (t + x0))
  let x0s := linspace 0 (16 * np_pi) trajectories_to_sample
  let y := x0s.map fun x0 => ti.map fun t => sampler t x0
  let trajectories := y.map fun row => row.map fun v => [v]
  let sample_rate := (t_nsamples : ℚ) / (diffs ti).sum * 2 * np_pi
  { trajectories := trajectories, t := [ti], sample_rate := sample_rate
    features := { hist_feature := [0], fcst_feature := [0], avail_fcst_feature := none } }

/-- `np.lib.stride_tricks.sliding_window_view(df, w, axis=0)` followed by
`transpose(0, 2, 1)`: all length-`w` windows of consecutive rows. -/
def slidingWindows (df : List (List ℚ)) (w : Nat) : List (List (List ℚ)) :=
  (List.range (df.length + 1 - w)).map fun i => (df.drop i).take w

/-- The `mfred` electricity-load generator.  The CSV contents
(`../datasets/MFRED_wiztemp.csv`) are an input; `window_width` arrives via
`kwargs.get` and is `None` when the caller omitted it, which makes
`sliding_window_view` raise, as does a window larger than the series.
`t = torch.arange(window_width)`, `time = torch.diff(t).sum()`. -/
def mfred (csv : List (List ℚ)) (double : Bool) (window_width : Option Nat) :
    Except String RawData :=
  match window_width with
  | none => Except.error "window_width must be an int"
  | some w =>
    if w ≤ csv.length then
      let trajs := everyNth 12 (slidingWindows csv w)
      let t : List ℚ := (List.range w).map fun (i : Nat) => (i : ℚ)
      let time : ℚ := (diffs t).sum
      Except.ok
        { trajectories := trajs, t := [t], sample_rate := (w : ℚ) / time
          features := { hist_feature := [0], fcst_feature := [0], avail_fcst_feature := some [1] } }
    else Except.error "window shape cannot be larger than input array shape"

/-- The `nrel` wind-power generator (same windowing as `mfred`,
`transformed` is accepted but unused by the body, two available-forecast
channels). -/
def nrel (csv : List (List ℚ)) (double : Bool) (transformed : Option Bool)
    (window_width : Option Nat) : Except String RawData :=
  match window_width with
  | none => Except.error "window_width must be an int"
  | some w =>
    if w ≤ csv.length then
      let trajs := everyNth 12 (slidingWindows csv w)
      let t : List ℚ := (List.range w).map fun (i : Nat) => (i : ℚ)
      let time : ℚ := (diffs t).sum
      Except.ok
        { trajectories := trajs, t := [t], sample_rate := (w : ℚ) / time
          features := { hist_feature := [0], fcst_feature := [0],
                        avail_fcst_feature := some [1, 2] } }
    else Except.error "window shape cannot be larger than input array shape"

/-- Train / val / test statistics: `normalize=False` returns the Python
ints `0` and `1`, `normalize=True` per-channel tensors. -/
inductive NormStat where
  | scalar : ℚ → NormStat
  | vec : List ℚ → NormStat
deriving DecidableEq

/-- Per-channel `np.nanmean` over the `reshape(-1, dim)` rows (the model's
data is NaN-free, so nanmean coincides with the mean). -/
def nanmeanCols (rows : List (List ℚ)) : List ℚ :=
  rows.transpose.map listMean

/-- Per-channel `np.nanstd` (`sqrtq` is the binary64 square-root oracle). -/
def nanstdCols (sqrtq : ℚ → ℚ) (rows : List (List ℚ)) : List ℚ :=
  rows.transpose.map fun col => sqrtq (listMean (col.map fun x => (x - listMean col) ^ 2))

/-- `(reshape(-1, dim) - train_mean) / train_std`, one row at a time. -/
def normalizeRows (mean std : List ℚ) (rows : List (List ℚ)) : List (List ℚ) :=
  rows.map fun row => ((row.zip mean).zip std).map fun p => (p.1.1 - p.1.2) / p.2

/-- `reshape((n, -1, dim))` after a `reshape(-1, dim)`: re-chunk the row
list into `n` equal trajectories. -/
def reshapeTraj (n : Nat) (rows : List (List ℚ)) : List (List (List ℚ)) :=
  chunksOf (rows.length / n) rows

/-- The `extrap == 0` missing-at-random mask:
`uniform_() < 1.0 - percent_missing` per element, multiplied in. -/
def applyMask (unif : Nat → Nat → Nat → ℚ) (p : ℚ)
    (trajs : List (List (List ℚ))) : List (List (List ℚ)) :=
  trajs.mapIdx fun i tr => tr.mapIdx fun j row => row.mapIdx fun k x =>
    (if unif i j k < 1 - p then (1 : ℚ) else 0) * x

/-- `trajectories += torch.randn(shape) * noise_std`. -/
def applyNoise (randn : Nat → Nat → Nat → ℚ) (noise_std : ℚ)
    (trajs : List (List (List ℚ))) : List (List (List ℚ)) :=
  trajs.mapIdx fun i tr => tr.mapIdx fun j row => row.mapIdx fun k x =>
    x + randn i j k * noise_std

/-- The chronological (out-of-distribution) split, lines 244-249:
`trajectories[:int(0.8*N)]`, `trajectories[int(0.8*N):int(0.9*N)]`,
`trajectories[int(0.9*N):]`. -/
def chronoSplit (trajs : List (List (List ℚ))) :
    List (List (List ℚ)) × List (List (List ℚ)) × List (List (List ℚ)) :=
  let train_split := fpInt c08 trajs.length
  let test_split := fpInt c09 trajs.length
  (trajs.take train_split, pySlice trajs train_split test_split, trajs.drop test_split)

/-- Environment of `generate_data_set`: the transcendental/IO/RNG inputs.
`setup_seed` (torchlaplace/utils.py) seeds the global RNGs; the draws the
seeded RNGs would produce are the oracle fields here. -/
structure Env where
  sinq : ℚ → ℚ
  sqrtq : ℚ → ℚ
  mfred_csv : List (List ℚ)
  nrel_csv : List (List ℚ)
  unif : Nat → Nat → Nat → ℚ
  randn : Nat → Nat → Nat → ℚ
  traj_perm : Nat → List Nat
  rand_perm : Nat → List Nat

/-- Keyword arguments of `generate_data_set`, with the Python defaults.
`observe_stride`, `predict_stride` and `avail_fcst_stride` are accepted
but unused by the function body.  `seed` is consumed by `setup_seed`;
`transformed` and `window_width` travel through `**kwargs`. -/
structure GenArgs where
  name : String
  double : Bool := false
  batch_size : Nat := 128
  extrap : Nat := 0
  trajectories_to_sample : Nat := 100
  percent_missing_at_random : ℚ := 0
  normalize : Bool := true
  test_set_out_of_distribution : Bool := true
  noise_std : Option ℚ := none
  t_nsamples : Nat := 200
  observe_stride : Nat := 1
  predict_stride : Nat := 1
  avail_fcst_stride : Nat := 12
  add_external_feature : Bool := false
  observe_steps : Nat := 200
  seed : Nat := 0
  avg_terms : Nat := 1
  transformed : Option Bool := none
  window_width : Option Nat := none

/-- What `generate_data_set` returns (the 12-tuple, as a structure). -/
structure GenResult where
  input_dim : Nat × Option Nat
  output_dim : Nat
  sample_rate : ℚ
  t : List (List ℚ)
  dltrain : DataLoader
  dlval : DataLoader
  dltest : DataLoader
  input_timesteps : Nat × Option Nat
  output_timesteps : Nat
  train_mean : NormStat
  train_std : NormStat
  feature : Feature

/-- The `if name == ... / elif ... / else raise` dataset dispatch at the
top of `generate_data_set`. -/
def datasetDispatch (env : Env) (a : GenArgs) : Except String RawData :=
  if a.name = "nrel" then nrel env.nrel_csv a.double a.transformed a.window_width
  else if a.name = "sine" then
    Except.ok (sine env.sinq a.double a.trajectories_to_sample a.t_nsamples)
  else if a.name = "mfred" then mfred env.mfred_csv a.double a.window_width
  else Except.error "Unknown Dataset To Test"

/-- `b = next(iter(dltrain))`: the probe batch generate_data_set reads its
dimension metadata from (`StopIteration` on an empty loader). -/
def firstBatch (dl : DataLoader) : Except String Batch :=
  match (dl.epochBatches []).head? with
  | some eb => eb
  | none => Except.error "StopIteration"

/-- `generate_data_set`.  Shape metadata (`shape[-1]`, `shape[1]`) of the
probe batch is read off the first element of the rectangular tensors. -/
def generate_data_set (env : Env) (a : GenArgs) : Except String GenResult := do
  let raw ← datasetDispatch env a
  let feature :=
    if ¬ a.add_external_feature then { raw.features with avail_fcst_feature := none }
    else raw.features
  let trajectories :=
    if a.extrap = 0 then applyMask env.unif a.percent_missing_at_random raw.trajectories
    else raw.trajectories
  let trajectories :=
    match a.noise_std with
    | some s => if s = 0 then trajectories else applyNoise env.randn s trajectories
    | none => trajectories
  let train_split := fpInt c08 trajectories.length
  let test_split := fpInt c09 trajectories.length
  let split :=
    if a.test_set_out_of_distribution then chronoSplit trajectories
    else
      let traj_index := env.traj_perm trajectories.length
      (reindex (traj_index.take train_split) trajectories,
       reindex (pySlice traj_index train_split test_split) trajectories,
       reindex (traj_index.drop test_split) trajectories)
  let stats :=
    if a.normalize then
      let len_train := split.1.length
      let len_val := split.2.1.length
      let len_test := split.2.2.length
      let train_rows := split.1.flatten
      let mean := nanmeanCols train_rows
      let std := nanstdCols env.sqrtq train_rows
      (reshapeTraj len_train (normalizeRows mean std train_rows),
       reshapeTraj len_val (normalizeRows mean std split.2.1.flatten),
       reshapeTraj len_test (normalizeRows mean std split.2.2.flatten),
       NormStat.vec mean, NormStat.vec std)
    else (split.1, split.2.1, split.2.2, NormStat.scalar 0, NormStat.scalar 1)
  let rand_idx := env.rand_perm stats.1.length
  let train_trajectories := reindex rand_idx stats.1
  let mkDS := fun trajs =>
    TimeSeriesDataset.init trajs raw.t a.observe_steps a.avg_terms
      feature.hist_feature feature.fcst_feature feature.avail_fcst_feature
  let dsTrain := mkDS train_trajectories
  let dsVal := mkDS stats.2.1
  let dsTest := mkDS stats.2.2.1
  let dltrain : DataLoader :=
    { dataset := (List.range dsTrain.len).map dsTrain.getItem
      batch_size := a.batch_size, shuffle := false, collate := collate_fn }
  let dlval : DataLoader :=
    { dataset := (List.range dsVal.len).map dsVal.getItem
      batch_size := a.batch_size, shuffle := false, collate := collate_fn }
  let dltest : DataLoader :=
    { dataset := (List.range dsTest.len).map dsTest.getItem
      batch_size := a.batch_size, shuffle := false, collate := collate_fn }
  let b ← firstBatch dltrain
  let dims :=
    match b.available_forecasts with
    | some af => ((dim3 b.observed_data, some (dim3 af)), some ((af.headD []).length))
    | none => ((dim3 b.observed_data, none), none)
  Except.ok
    { input_dim := dims.1
      output_dim := dim3 b.data_to_predict
      sample_rate := raw.sample_rate
      t := raw.t
      dltrain := dltrain, dlval := dlval, dltest := dltest
      input_timesteps := ((b.observed_data.headD []).length, dims.2)
      output_timesteps := (b.data_to_predict.headD []).length
      train_mean := stats.2.2.2.1
      train_std := stats.2.2.2.2
      feature := feature }

/-! # src/benchmarks.py -/

/-- Dot product of two equal-length rows. -/
def dot (a b : List ℚ) : ℚ := ((a.zip b).map fun p => p.1 * p.2).sum

/-- An `nn.Linear` layer: weight matrix rows paired with biases. -/
structure Linear where
  weight : List (List ℚ)
  bias : List ℚ

/-- Apply a linear layer to one input row. -/
def Linear.apply (f : Linear) (x : List ℚ) : List ℚ :=
  (f.weight.zip f.bias).map fun wb => dot wb.1 x + wb.2

/-- `OdeFunc`: the vector-field module.  `sig` is the `nn.Tanh()` oracle
(tanh is transcendental, and no claim depends on its values); the three
linear layers carry the sampled weights. -/
structure OdeFunc where
  time_dependent : Bool
  sig : ℚ → ℚ
  fc1 : Linear
  fc1_5 : Linear
  fc2 : Linear
  nfe : Nat

/-- `OdeFunc.__init__`: fresh layers (weights abstracted into the
arguments), evaluation counter starts at zero. -/
def OdeFunc.init (sig : ℚ → ℚ) (fc1 fc1_5 fc2 : Linear)
    (time_dependent : Bool := true) : OdeFunc :=
  { time_dependent := time_dependent, sig := sig, fc1 := fc1, fc1_5 := fc1_5, fc2 := fc2
    nfe := 0 }

/-- `OdeFunc.forward(t, z)` on a `(batch, dim)` state: `self.nfe += 1`,
then (per batch row) optionally prepend the broadcast time and run
`fc1 → tanh → fc1_5 → tanh → fc2`.  Returns the output batch and the
module state after the mutation. -/
def OdeFunc.forward (f : OdeFunc) (t : ℚ) (z : List (List ℚ)) :
    List (List ℚ) × OdeFunc :=
  (z.map fun row =>
      let out := if f.time_dependent then f.fc1.apply (t :: row) else f.fc1.apply row
      let out := out.map f.sig
      let out := f.fc1_5.apply out
      let out := out.map f.sig
      f.fc2.apply out,
    { f with nfe := f.nfe + 1 })

/-- The external `torchdiffeq.odeint_adjoint` call as the model sees it:
initial `(batch, dim)` state and flattened query times to a time-major
`(num_times, batch, dim)` trajectory.  The vector field, solver `method`
and `adjoint_options={"norm": "seminorm"}` are closed over. -/
abbrev OdeInt := List (List ℚ) → List ℚ → List (List (List ℚ))

/-- `torch.transpose(features, 0, 1)` on a rectangular `(T, B, D)` tensor:
the batch width is shape metadata, read off the first time slice. -/
def transpose01 (x : List (List (List ℚ))) : List (List (List ℚ)) :=
  (List.range (x.headD []).length).map fun j => x.map fun tr => tr.getD j []

/-- The zero augmentation applied inside both forward passes:
`torch.cat([x0, torch.zeros(batch, augment_dim)], 1)` when
`augment_dim > 0`, else `x0` untouched. -/
def augmentBatch (augment_dim : Nat) (x0 : List (List ℚ)) : List (List ℚ) :=
  if 0 < augment_dim then x0.map fun row => row ++ List.replicate augment_dim 0
  else x0

/-- The plain `NODE` model (`extrap` is an int flag tested for truthiness). -/
structure NODE where
  ode_func : OdeFunc
  method : String
  augment_dim : Nat
  extrap : Nat

/-- `NODE.__init__`: builds `OdeFunc(obs_dim + augment_dim, nhidden)` —
the fresh layer weights are abstracted into the `Linear`/`sig` arguments,
the layer dimensions being part of those weights. -/
def NODE.init (sig : ℚ → ℚ) (fc1 fc1_5 fc2 : Linear) (method : String := "euler")
    (augment_dim : Nat := 0) (extrap : Nat := 0) : NODE :=
  { ode_func := OdeFunc.init sig fc1 fc1_5 fc2, method := method
    augment_dim := augment_dim, extrap := extrap }

/-- `NODE.encode`: the initial condition is `trajectories[:, -1, :]` in
extrapolation mode, else `trajectories[:, 0, :]` (torch raises on an empty
time axis; the defaults are never hit for `T ≥ 1`). -/
def NODE.encode (m : NODE) (trajectories : List (List (List ℚ))) : List (List ℚ) :=
  if m.extrap ≠ 0 then trajectories.map fun tr => tr.getLastD []
  else trajectories.map fun tr => tr.headD []

/-- `NODE.forward(trajectories, ti)`: flatten the query times, pick `x0`
(the same inline selection as `encode`), zero-augment it when
`augment_dim > 0`, integrate, transpose `(T, N, D) → (N, T, D)`, and keep
the channels `[: shape[2] - augment_dim]`. -/
def NODE.forward (m : NODE) (odeint : OdeInt) (trajectories : List (List (List ℚ)))
    (ti : List (List ℚ)) : List (List (List ℚ)) :=
  let t := ti.flatten
  let x0 :=
    if m.extrap ≠ 0 then trajectories.map fun tr => tr.getLastD []
    else trajectories.map fun tr => tr.headD []
  let x_aug := augmentBatch m.augment_dim x0
  let features := odeint x_aug t
  let features := transpose01 features
  features.map fun tr => tr.map fun row => row.take (dim3 features - m.augment_dim)

/-- The tail of `NODE.forward` after the initial-condition selection
(augment, integrate, transpose, trim), used to state that `forward`'s
inline `x0` selection coincides with `encode`. -/
def NODE.forwardFrom (m : NODE) (odeint : OdeInt) (x0 : List (List ℚ))
    (ti : List (List ℚ)) : List (List (List ℚ)) :=
  let x_aug := augmentBatch m.augment_dim x0
  let features := odeint x_aug ti.flatten
  let features := transpose01 features
  features.map fun tr => tr.map fun row => row.take (dim3 features - m.augment_dim)

/-- `GRUEncoder`: a 2-layer `nn.GRU` (its gate networks are abstracted into
the `gru` oracle mapping one input sequence to its top-layer hidden-state
sequence) followed by a linear readout of the last hidden state. -/
structure GRUEncoder where
  gru : List (List ℚ) → List (List ℚ)
  linear_out : Linear

/-- `GRUEncoder.forward`: `out, _ = gru(i); linear_out(out[:, -1, :])`. -/
def GRUEncoder.forward (e : GRUEncoder) (i : List (List (List ℚ))) : List (List ℚ) :=
  i.map fun traj => e.linear_out.apply ((e.gru traj).getLastD [])

/-- The latent-variable `LatentNODE` model. -/
structure LatentNODE where
  ode_func : OdeFunc
  method : String
  encoder : GRUEncoder
  augment_dim : Nat
  extrap : Nat

/-- `LatentNODE.forward(trajectories, ti)`: like `NODE.forward` but the
initial condition comes from the encoder, and the returned channels are
`[shape[2] - augment_dim :]` — the *other* end of the channel axis. -/
def LatentNODE.forward (m : LatentNODE) (odeint : OdeInt)
    (trajectories : List (List (List ℚ))) (ti : List (List ℚ)) :
    List (List (List ℚ)) :=
  let t := ti.flatten
  let x0 := m.encoder.forward trajectories
  let x_aug := augmentBatch m.augment_dim x0
  let features := odeint x_aug t
  let features := transpose01 features
  features.map fun tr => tr.map fun row => row.drop (dim3 features - m.augment_dim)

/-- The `Persistence` baseline.  An unknown `kind` would leave `out`
unbound in Python (`UnboundLocalError`); the constructor below only ever
passes `"naive"` or `"loop"`. -/
structure Persistence where
  out_timesteps : Nat
  kind : String

/-- `Persistence.forward`: repeat the last observation, or replay the last
`out_timesteps` observations. -/
def Persistence.forward (p : Persistence) (i : List (List (List ℚ))) :
    List (List (List ℚ)) :=
  if p.kind = "naive" then i.map fun tr => List.replicate p.out_timesteps (tr.getLastD [])
  else if p.kind = "loop" then i.map fun tr => tr.drop (tr.length - p.out_timesteps)
  else []

/-- `LSTMNetwork`: 2-layer `nn.LSTM` (abstracted, like the GRU) plus
readout reshaped to `(batch, out_timesteps, out_dim)`. -/
structure LSTMNetwork where
  lstm : List (List ℚ) → List (List ℚ)
  linear_out : Linear
  out_timesteps : Nat
  out_dim : Nat

/-- `MLPNetwork`: flatten, hidden sigmoid layer, readout reshaped to
`(batch, out_timesteps, out_dim)`. -/
structure MLPNetwork where
  hidden : Linear
  sigmoid : ℚ → ℚ
  linear_out : Linear
  out_timesteps : Nat
  out_dim : Nat

/-- `GeneralNODE` wraps a `NODE` (plus an `MSELoss`, which carries no
state). -/
structure GeneralNODE where
  model : NODE

/-- `GeneralNODE.__init__` (the `latent_dim` argument is accepted but
unused by the constructor body). -/
def GeneralNODE.init (sig : ℚ → ℚ) (fc1 fc1_5 fc2 : Linear) (method : String := "euler")
    (latent_dim : Nat := 2) (augment_dim : Nat := 0) (extrap : Nat := 0) : GeneralNODE :=
  { model := NODE.init sig fc1 fc1_5 fc2 method augment_dim extrap }

/-- `GeneralNODE.predict` (the *second* definition at lines 247-260; the
first `predict` is shadowed by this Python redefinition and is dead code).
Per batch: run the model on `(observed_data, tp_to_predict)`; the
ground-truth trajectory is `cat((observed_data, data_to_predict), axis=1)`
when `mode == "extrap"`, else `data_to_predict`; finally `torch.cat(·, 0)`
over batches. -/
def GeneralNODE.predict (g : GeneralNODE) (odeint : OdeInt) (dl : List Batch) :
    List (List (List ℚ)) × List (List (List ℚ)) :=
  let predictions := dl.map fun batch =>
    g.model.forward odeint batch.observed_data batch.tp_to_predict
  let trajs := dl.map fun batch =>
    if batch.mode = "extrap" then
      (batch.observed_data.zip batch.data_to_predict).map fun p => p.1 ++ p.2
    else batch.data_to_predict
  (predictions.flatten, trajs.flatten)

/-- `GeneralNODE._get_and_reset_nfes`: read `self.model.ode_func.nfe`,
zero it, return the read value (with the post-call module state). -/
def GeneralNODE._get_and_reset_nfes (g : GeneralNODE) : Nat × GeneralNODE :=
  (g.model.ode_func.nfe,
   { g with model := { g.model with ode_func := { g.model.ode_func with nfe := 0 } } })

/-- `GeneralPersistence` wraps a validated `Persistence` baseline. -/
structure GeneralPersistence where
  model : Persistence

/-- `GeneralPersistence.__init__`: dispatch on the method string, raising
`ValueError("No such Persistence model.")` for anything but
`"naive"`/`"loop"`. -/
def GeneralPersistence.init (out_timesteps : Nat) (method : String := "naive") :
    Except String GeneralPersistence :=
  if method = "naive" then
    Except.ok { model := { out_timesteps := out_timesteps, kind := "naive" } }
  else if method = "loop" then
    Except.ok { model := { out_timesteps := out_timesteps, kind := "loop" } }
  else Except.error "No such Persistence model."

/-- The submodule held by `GeneralNeuralNetwork`. -/
inductive NNModel where
  | lstm : LSTMNetwork → NNModel
  | mlp : MLPNetwork → NNModel

/-- `GeneralNeuralNetwork` wraps a validated LSTM/MLP baseline. -/
structure GeneralNeuralNetwork where
  model : NNModel

/-- `GeneralNeuralNetwork.__init__`: dispatch on the method string, raising
`ValueError("No such NN model.")` for anything but `"lstm"`/`"mlp"`.  The
freshly initialised submodule (dimensions `obs_dim`/`nhidden`/... and
sampled weights) is abstracted into the pre-built module arguments. -/
def GeneralNeuralNetwork.init (lstmNet : LSTMNetwork) (mlpNet : MLPNetwork)
    (method : String := "lstm") : Except String GeneralNeuralNetwork :=
  if method = "lstm" then Except.ok { model := NNModel.lstm lstmNet }
  else if method = "mlp" then Except.ok { model := NNModel.mlp mlpNet }
  else Except.error "No such NN model."

/-- Run a sequence of `OdeFunc.forward` calls (one sequential training
step's worth of solver evaluations), threading the module state. -/
def OdeFunc.runForwards (f : OdeFunc) (inputs : List (ℚ × List (List ℚ))) : OdeFunc :=
  inputs.foldl (fun s p => (s.forward p.1 p.2).2) f

/-! # Concrete instances used by individual claim checks -/

/-- A trivially-weighted `Linear` layer (for concrete instantiations). -/
def zeroLinear : Linear := { weight := [], bias := [] }

/-- A `1 → 1` identity `Linear` layer. -/
def idLinear : Linear := { weight := [[1]], bias := [0] }

/-- A `LatentNODE` whose (abstracted) encoder maps any batch to the single
latent state `[5]`, with one augmented dimension. -/
def latentOneAug : LatentNODE :=
  { ode_func := OdeFunc.init (fun x => x) zeroLinear zeroLinear zeroLinear
    method := "euler"
    encoder := { gru := fun _ => [[5]], linear_out := idLinear }
    augment_dim := 1
    extrap := 0 }

/-- The same `LatentNODE` with augmentation disabled (`augment_dim = 0`). -/
def latentNoAug : LatentNODE :=
  { ode_func := OdeFunc.init (fun x => x) zeroLinear zeroLinear zeroLinear
    method := "euler"
    encoder := { gru := fun _ => [[5]], linear_out := idLinear }
    augment_dim := 0
    extrap := 0 }

/-- An integrator queried at a single time point: by the boundary condition
of the ODE solution (`spec §8: the output at the seed time equals the seed
state`), `odeint(f, x0, [t0])` returns the seed batch as the only step. -/
def seedOdeint : OdeInt := fun x _ => [x]

/-- Environment for a tiny concrete `generate_data_set` run: a 26-row,
2-column CSV for `mfred`, zero oracles, and a reversing one-time train
permutation. -/
def c2env : Env :=
  { sinq := fun _ => 0
    sqrtq := fun _ => 0
    mfred_csv := (List.range 26).map fun (i : Nat) => [(i : ℚ), 0]
    nrel_csv := []
    unif := fun _ _ _ => 0
    randn := fun _ _ _ => 0
    traj_perm := fun n => List.range n
    rand_perm := fun n => (List.range n).reverse }

/-- Arguments for the tiny `mfred` run: 3 windowed trajectories, so the
chronological split gives 2 train / 0 val / 1 test, with one sample per
batch. -/
def c2args : GenArgs :=
  { name := "mfred", batch_size := 1, extrap := 1, normalize := false
    observe_steps := 1, window_width := some 2 }

/-- A one-sample input list for `collate_fn` (no available forecasts). -/
def c9data : List Sample :=
  [{ observed := [[1]], toPredict := [[2]], avail := AvailSlot.scalarNan
     tpToPredict := [[3]], observedTp := [[4]] }]

/-- The batch `collate_fn` produces from `c9data`. -/
def c9batch : Batch :=
  { observed_data := [[[1]]], data_to_predict := [[[2]]]
    available_forecasts := none, observed_tp := [[4]], tp_to_predict := [[3]]
    observed_mask := none, mask_predicted_data := none, labels := none
    mode := "extrap" }

/-- A plain `NODE` with one augmented dimension (first-timestep seeding). -/
def nodeOneAug : NODE :=
  { ode_func := OdeFunc.init (fun x => x) zeroLinear zeroLinear zeroLinear
    method := "euler", augment_dim := 1, extrap := 0 }

/-! # Theorems -/

theorem roundNearEven_mul_le (P s : Nat) (hs : 1 ≤ s) :
    roundNearEven P s * 2 ^ s ≤ P + 2 ^ (s - 1) := by
  have hpos : 0 < 2 ^ s := Nat.pos_pow_of_pos s (by decide)
  have hdm : P / 2 ^ s * 2 ^ s + P % 2 ^ s = P := Nat.div_add_mod' P (2 ^ s)
  have hhalf : 2 ^ s / 2 = 2 ^ (s - 1) := by
    conv_lhs => rw [show s = s - 1 + 1 by omega]
    rw [Nat.pow_succ, Nat.mul_div_cancel _ (by decide)]
  have hr : P % 2 ^ s < 2 ^ s := Nat.mod_lt _ hpos
  have h2 : 2 ^ (s - 1) + 2 ^ (s - 1) = 2 ^ s := by
    conv_rhs => rw [show s = s - 1 + 1 by omega]
    rw [Nat.pow_succ]; omega
  have hexp : (P / 2 ^ s + 1) * 2 ^ s = P / 2 ^ s * 2 ^ s + 2 ^ s := by ring
  unfold roundNearEven
  split
  · next h =>
    rcases h with h | h
    · rw [hhalf] at h; omega
    · rw [hhalf] at h; omega
  · next h => omega

theorem le_roundNearEven_mul (P s : Nat) (hs : 1 ≤ s) :
    P ≤ roundNearEven P s * 2 ^ s + 2 ^ (s - 1) := by
  have hpos : 0 < 2 ^ s := Nat.pos_pow_of_pos s (by decide)
  have hdm : P / 2 ^ s * 2 ^ s + P % 2 ^ s = P := Nat.div_add_mod' P (2 ^ s)
  have hhalf : 2 ^ s / 2 = 2 ^ (s - 1) := by
    conv_lhs => rw [show s = s - 1 + 1 by omega]
    rw [Nat.pow_succ, Nat.mul_div_cancel _ (by decide)]
  have hr : P % 2 ^ s < 2 ^ s := Nat.mod_lt _ hpos
  have h2 : 2 ^ (s - 1) + 2 ^ (s - 1) = 2 ^ s := by
    conv_rhs => rw [show s = s - 1 + 1 by omega]
    rw [Nat.pow_succ]; omega
  have hexp : (P / 2 ^ s + 1) * 2 ^ s = P / 2 ^ s * 2 ^ s + 2 ^ s := by ring
  unfold roundNearEven
  split
  · next h => omega
  · next h =>
    rw [not_or] at h
    have h1 : ¬ 2 ^ s / 2 < P % 2 ^ s := h.1
    rw [hhalf] at h1
    omega

theorem log2_bracket {P : Nat} (h : 2 ^ 53 ≤ P) :
    53 ≤ P.log2 ∧ 2 ^ P.log2 ≤ P ∧ P < 2 ^ (P.log2 + 1) := by
  have hP : P ≠ 0 := by omega
  rw [Nat.log2_eq_log_two]
  refine ⟨?_, Nat.pow_log_le_self 2 hP, Nat.lt_pow_succ_log_self (by decide) P⟩
  by_contra hc
  push_neg at hc
  have h2 : P < 2 ^ (Nat.log 2 P + 1) := Nat.lt_pow_succ_log_self (by decide) P
  have h3 : 2 ^ (Nat.log 2 P + 1) ≤ 2 ^ 53 := Nat.pow_le_pow_right (by decide) (by omega)
  omega

theorem fpExp_spec {P : Nat} (h1 : 2 ^ 53 ≤ P) (h2 : P < 2 ^ 1076) :
    1 ≤ fpExp P ∧ 2 ^ (fpExp P + 52) ≤ P ∧ P < 2 ^ (fpExp P + 53) := by
  obtain ⟨h53, hlo, hhi⟩ := log2_bracket h1
  have hup : P.log2 ≤ 1075 := by
    by_contra hc
    push_neg at hc
    have : 2 ^ 1076 ≤ 2 ^ P.log2 := Nat.pow_le_pow_right (by decide) (by omega)
    omega
  have hs0 : (fun s => Nat.ble (2 ^ (s + 52)) P && Nat.blt P (2 ^ (s + 53)))
      (P.log2 - 52) = true := by
    have e1 : P.log2 - 52 + 52 = P.log2 := by omega
    have e2 : P.log2 - 52 + 53 = P.log2 + 1 := by omega
    simp only [e1, e2, Bool.and_eq_true, Nat.ble_eq, Nat.blt_eq]
    exact ⟨hlo, hhi⟩
  have hmem : P.log2 - 52 ∈ List.range 1024 := by
    simp only [List.mem_range]; omega
  rcases hfind : (List.range 1024).find? fun s =>
      Nat.ble (2 ^ (s + 52)) P && Nat.blt P (2 ^ (s + 53)) with _ | s
  · exfalso
    rw [List.find?_eq_none] at hfind
    exact absurd hs0 (by simpa using hfind _ hmem)
  · have hps := List.find?_some hfind
    simp only [Bool.and_eq_true, Nat.ble_eq, Nat.blt_eq] at hps
    have he : fpExp P = s := by rw [fpExp, hfind]; rfl
    rw [he]
    refine ⟨?_, hps.1, hps.2⟩
    rcases Nat.eq_zero_or_pos s with hz | hpos
    · subst hz
      have : P < 2 ^ 53 := by simpa using hps.2
      omega
    · exact hpos

theorem fpInt_bracket {c N : Nat} (h1 : 2 ^ 53 ≤ c * N) (h2 : c * N < 2 ^ 1076) :
    roundNearEven (c * N) (fpExp (c * N)) * 2 ^ fpExp (c * N) * 2 ^ 53 ≤
        c * N * 2 ^ 53 + c * N ∧
      c * N * 2 ^ 53 ≤
        roundNearEven (c * N) (fpExp (c * N)) * 2 ^ fpExp (c * N) * 2 ^ 53 + c * N := by
  obtain ⟨hs, hlo, hhi⟩ := fpExp_spec h1 h2
  set P := c * N with hPdef
  set s := fpExp P with hsdef
  have hulp : 2 ^ (s - 1) * 2 ^ 53 ≤ P := by
    calc 2 ^ (s - 1) * 2 ^ 53 = 2 ^ (s - 1 + 53) := by rw [Nat.pow_add]
    _ = 2 ^ (s + 52) := by rw [show s - 1 + 53 = s + 52 by omega]
    _ ≤ P := hlo
  constructor
  · have hb := roundNearEven_mul_le P s hs
    calc roundNearEven P s * 2 ^ s * 2 ^ 53 ≤ (P + 2 ^ (s - 1)) * 2 ^ 53 :=
          Nat.mul_le_mul_right _ hb
    _ = P * 2 ^ 53 + 2 ^ (s - 1) * 2 ^ 53 := by ring
    _ ≤ P * 2 ^ 53 + P := by omega
  · have hb := le_roundNearEven_mul P s hs
    calc P * 2 ^ 53 ≤ (roundNearEven P s * 2 ^ s + 2 ^ (s - 1)) * 2 ^ 53 :=
          Nat.mul_le_mul_right _ hb
    _ = roundNearEven P s * 2 ^ s * 2 ^ 53 + 2 ^ (s - 1) * 2 ^ 53 := by ring
    _ ≤ roundNearEven P s * 2 ^ s * 2 ^ 53 + P := by omega

/-- The chronological split bounds are ordered: `int(0.8*N) ≤ int(0.9*N)`
(for any in-memory trajectory count). -/
theorem fpInt_c08_le_c09 (N : Nat) (hN : N ≤ 2 ^ 53) : fpInt c08 N ≤ fpInt c09 N := by
  by_cases h8 : c08 * N < 2 ^ 53
  · have e8 : fpInt c08 N = 0 := by rw [fpInt, if_pos h8]
    simp [e8]
  · have hcc : c08 * N ≤ c09 * N := Nat.mul_le_mul_right N (by norm_num [c08, c09])
    have h9 : ¬ c09 * N < 2 ^ 53 := by omega
    have hb8 : c08 * N < 2 ^ 1076 := by
      calc c08 * N ≤ c08 * 2 ^ 53 := Nat.mul_le_mul_left _ hN
      _ < 2 ^ 1076 := by norm_num [c08]
    have hb9 : c09 * N < 2 ^ 1076 := by
      calc c09 * N ≤ c09 * 2 ^ 53 := Nat.mul_le_mul_left _ hN
      _ < 2 ^ 1076 := by norm_num [c09]
    rw [fpInt, if_neg h8, fpInt, if_neg h9]
    push_neg at h8 h9
    obtain ⟨hA1, hA2⟩ := fpInt_bracket (c := c08) (N := N) h8 hb8
    obtain ⟨hB1, hB2⟩ := fpInt_bracket (c := c09) (N := N) h9 hb9
    set A := roundNearEven (c08 * N) (fpExp (c08 * N)) * 2 ^ fpExp (c08 * N) with hA
    set B := roundNearEven (c09 * N) (fpExp (c09 * N)) * 2 ^ fpExp (c09 * N) with hB
    have hgap : c08 * N * 2 ^ 53 + (c08 * N) + (c09 * N) ≤ c09 * N * 2 ^ 53 := by
      calc c08 * N * 2 ^ 53 + c08 * N + c09 * N = (c08 * 2 ^ 53 + c08 + c09) * N := by ring
      _ ≤ (c09 * 2 ^ 53) * N := Nat.mul_le_mul_right N (by norm_num [c08, c09])
      _ = c09 * N * 2 ^ 53 := by ring
    have hAB : A * 2 ^ 53 ≤ B * 2 ^ 53 := by omega
    exact Nat.div_le_div_right (Nat.le_of_mul_le_mul_right hAB (by norm_num))

/-- The upper split bound never exceeds the trajectory count:
`int(0.9*N) ≤ N`. -/
theorem fpInt_c09_le (N : Nat) (hN : N ≤ 2 ^ 53) : fpInt c09 N ≤ N := by
  by_cases h9 : c09 * N < 2 ^ 53
  · have e9 : fpInt c09 N = 0 := by rw [fpInt, if_pos h9]
    simp [e9]
  · have hb9 : c09 * N < 2 ^ 1076 := by
      calc c09 * N ≤ c09 * 2 ^ 53 := Nat.mul_le_mul_left _ hN
      _ < 2 ^ 1076 := by norm_num [c09]
    rw [fpInt, if_neg h9]
    push_neg at h9
    obtain ⟨hB1, _⟩ := fpInt_bracket (c := c09) (N := N) h9 hb9
    set B := roundNearEven (c09 * N) (fpExp (c09 * N)) * 2 ^ fpExp (c09 * N) with hB
    have hBlt : B * 2 ^ 53 < (N + 1) * 2 ^ 53 * 2 ^ 53 := by
      have h1 : c09 * N * 2 ^ 53 + c09 * N = c09 * (2 ^ 53 + 1) * N := by ring
      have h2 : c09 * (2 ^ 53 + 1) * N < 2 ^ 53 * 2 ^ 53 * N + 2 ^ 53 * 2 ^ 53 := by
        have hc : c09 * (2 ^ 53 + 1) < 2 ^ 53 * 2 ^ 53 := by norm_num [c09]
        calc c09 * (2 ^ 53 + 1) * N ≤ 2 ^ 53 * 2 ^ 53 * N :=
              Nat.mul_le_mul_right N (by omega)
        _ < 2 ^ 53 * 2 ^ 53 * N + 2 ^ 53 * 2 ^ 53 := by
              have hp : (0 : ℕ) < 2 ^ 53 * 2 ^ 53 := by norm_num
              omega
      calc B * 2 ^ 53 ≤ c09 * N * 2 ^ 53 + c09 * N := hB1
      _ = c09 * (2 ^ 53 + 1) * N := h1
      _ < 2 ^ 53 * 2 ^ 53 * N + 2 ^ 53 * 2 ^ 53 := h2
      _ = (N + 1) * 2 ^ 53 * 2 ^ 53 := by ring
    have hBlt2 : B < (N + 1) * 2 ^ 53 :=
      lt_of_mul_lt_mul_right hBlt (Nat.zero_le _)
    have hfin : B / 2 ^ 53 < N + 1 :=
      Nat.div_lt_of_lt_mul (by omega)
    omega

set_option maxRecDepth 40000 in
theorem fpInt_c08_1000 : fpInt c08 1000 = 800 := by decide

set_option maxRecDepth 40000 in
theorem fpInt_c09_1000 : fpInt c09 1000 = 900 := by decide

/-- `l[:a] ++ l[a:b] ++ l[b:] = l` whenever `a ≤ b`. -/
theorem pySlice_partition {l : List α} {a b : Nat} (hab : a ≤ b) :
    l.take a ++ pySlice l a b ++ l.drop b = l := by
  have h1 : pySlice l a b = (l.take b).drop a := by
    rw [pySlice, List.drop_take]
  have h2 : l.take a = (l.take b).take a := by
    rw [List.take_take, Nat.min_eq_left hab]
  rw [h1, h2, List.take_append_drop, List.take_append_drop]

/--
**C7.** For a trajectory tensor with `N = 1000` trajectories, the
chronological (out-of-distribution) split assigns exactly 800 trajectories
to train, 100 to val and 100 to test; in general it takes the contiguous
index ranges `[0, int(0.8*N))`, `[int(0.8*N), int(0.9*N))` and
`[int(0.9*N), N)` (with binary64 `int(0.8*N)`/`int(0.9*N)`, embedded as
`fpInt c08`/`fpInt c09`), and the three splits partition the trajectory
set.  The bound `N ≤ 2^53` is where the binary64 model of the split
arithmetic is exact (any in-memory trajectory count). -/
theorem claim_C7 (trajs : List (List (List ℚ))) (hN : trajs.length ≤ 2 ^ 53) :
    (chronoSplit trajs).1 ++ (chronoSplit trajs).2.1 ++ (chronoSplit trajs).2.2 = trajs ∧
    (chronoSplit trajs).1.length = fpInt c08 trajs.length ∧
    (chronoSplit trajs).2.1.length = fpInt c09 trajs.length - fpInt c08 trajs.length ∧
    (chronoSplit trajs).2.2.length = trajs.length - fpInt c09 trajs.length ∧
    (trajs.length = 1000 →
      (chronoSplit trajs).1.length = 800 ∧
      (chronoSplit trajs).2.1.length = 100 ∧
      (chronoSplit trajs).2.2.length = 100) := by
  have hab := fpInt_c08_le_c09 trajs.length hN
  have hbN := fpInt_c09_le trajs.length hN
  have hsplit : chronoSplit trajs =
      (trajs.take (fpInt c08 trajs.length),
       pySlice trajs (fpInt c08 trajs.length) (fpInt c09 trajs.length),
       trajs.drop (fpInt c09 trajs.length)) := by
    rw [chronoSplit]
  rw [hsplit]
  have hl1 : (trajs.take (fpInt c08 trajs.length)).length = fpInt c08 trajs.length := by
    simp only [List.length_take]
    omega
  have hl2 : (pySlice trajs (fpInt c08 trajs.length) (fpInt c09 trajs.length)).length
      = fpInt c09 trajs.length - fpInt c08 trajs.length := by
    simp only [pySlice, List.length_take, List.length_drop]
    omega
  have hl3 : (trajs.drop (fpInt c09 trajs.length)).length
      = trajs.length - fpInt c09 trajs.length := by
    simp only [List.length_drop]
  refine ⟨pySlice_partition hab, hl1, hl2, hl3, fun h1000 => ?_⟩
  rw [hl1, hl2, hl3, h1000, fpInt_c08_1000, fpInt_c09_1000]
  exact ⟨rfl, rfl, rfl⟩

/-- Witness for C7 at a concrete 1000-trajectory tensor. -/
theorem claim_C7_witness :
    (List.replicate 1000 [[(0 : ℚ)]]).length ≤ 2 ^ 53 ∧
    ((chronoSplit (List.replicate 1000 [[(0 : ℚ)]])).1.length = 800 ∧
     (chronoSplit (List.replicate 1000 [[(0 : ℚ)]])).2.1.length = 100 ∧
     (chronoSplit (List.replicate 1000 [[(0 : ℚ)]])).2.2.length = 100) := by
  have h := claim_C7 (List.replicate 1000 [[(0 : ℚ)]]) (by norm_num)
  exact ⟨by norm_num, h.2.2.2.2 (by norm_num)⟩

/--
**C6.** For every dataset name outside {"nrel", "sine", "mfred"},
`generate_data_set` raises `ValueError("Unknown Dataset To Test")` before
constructing any loaders or touching any data (the error is the entire
result of the embedded function); for every method string outside
{"naive", "loop"} the `GeneralPersistence` constructor raises, and for
every method string outside {"lstm", "mlp"} the `GeneralNeuralNetwork`
constructor raises — with no fallback model or dataset substituted. -/
theorem claim_C6 (env : Env) (a : GenArgs) (k : Nat) (m1 m2 : String)
    (lstmNet : LSTMNetwork) (mlpNet : MLPNetwork)
    (hn1 : a.name ≠ "nrel") (hn2 : a.name ≠ "sine") (hn3 : a.name ≠ "mfred")
    (hp1 : m1 ≠ "naive") (hp2 : m1 ≠ "loop")
    (hq1 : m2 ≠ "lstm") (hq2 : m2 ≠ "mlp") :
    generate_data_set env a = Except.error "Unknown Dataset To Test" ∧
    GeneralPersistence.init k m1 = Except.error "No such Persistence model." ∧
    GeneralNeuralNetwork.init lstmNet mlpNet m2 = Except.error "No such NN model." := by
  refine ⟨?_, ?_, ?_⟩
  · rw [generate_data_set, datasetDispatch, if_neg hn1, if_neg hn2, if_neg hn3]
    rfl
  · rw [GeneralPersistence.init, if_neg hp1, if_neg hp2]
  · rw [GeneralNeuralNetwork.init, if_neg hq1, if_neg hq2]

/-- Witness for C6 at the concrete strings "foo" / "bar" / "baz". -/
theorem claim_C6_witness :
    generate_data_set
        ⟨fun _ => 0, fun _ => 0, [], [], fun _ _ _ => 0, fun _ _ _ => 0,
         fun n => List.range n, fun n => List.range n⟩
        { name := "foo" } = Except.error "Unknown Dataset To Test" ∧
    GeneralPersistence.init 3 "bar" = Except.error "No such Persistence model." ∧
    GeneralNeuralNetwork.init ⟨fun x => x, zeroLinear, 0, 0⟩
        ⟨zeroLinear, fun x => x, zeroLinear, 0, 0⟩ "baz"
      = Except.error "No such NN model." :=
  claim_C6
    ⟨fun _ => 0, fun _ => 0, [], [], fun _ _ _ => 0, fun _ _ _ => 0,
     fun n => List.range n, fun n => List.range n⟩
    { name := "foo" } 3 "bar" "baz"
    ⟨fun x => x, zeroLinear, 0, 0⟩ ⟨zeroLinear, fun x => x, zeroLinear, 0, 0⟩
    (by decide) (by decide) (by decide) (by decide) (by decide) (by decide) (by decide)

/--
**C3.** Every invocation of `OdeFunc.forward` increments the `nfe` counter
by exactly one and changes nothing else of the module state (so nothing
inside `OdeFunc` ever resets it); `GeneralNODE._get_and_reset_nfes`
returns the counter's current value and zeroes it in the same step; and
for any sequence of vector-field evaluations performed within one
sequential training step, reading-and-resetting afterwards reports the
full count — no increment is lost between the read and the reset. -/
theorem claim_C3 :
    (∀ (f : OdeFunc) (t : ℚ) (z : List (List ℚ)),
        (f.forward t z).2 = { f with nfe := f.nfe + 1 }) ∧
    (∀ g : GeneralNODE,
        g._get_and_reset_nfes.1 = g.model.ode_func.nfe ∧
        g._get_and_reset_nfes.2.model.ode_func.nfe = 0) ∧
    (∀ (f : OdeFunc) (inputs : List (ℚ × List (List ℚ))),
        (f.runForwards inputs).nfe = f.nfe + inputs.length) := by
  refine ⟨fun f t z => rfl, fun g => ⟨rfl, rfl⟩, fun f inputs => ?_⟩
  induction inputs generalizing f with
  | nil => simp [OdeFunc.runForwards]
  | cons p ps ih =>
      have hstep : OdeFunc.runForwards f (p :: ps)
          = OdeFunc.runForwards ((f.forward p.1 p.2).2) ps := rfl
      rw [hstep, ih]
      simp [OdeFunc.forward]
      omega

/--
**C4.** For every observed trajectory batch with a nonempty time axis, the
plain NODE selects the initial condition as the first observed timestep
when the `extrap` flag is unset and as the last observed timestep when it
is set — in `encode`, and `forward` factors through the very same
selection — so the choice depends only on the configuration flag, not on
the data. -/
theorem claim_C4 (m : NODE) (odeint : OdeInt) (trajectories : List (List (List ℚ)))
    (ti : List (List ℚ)) (hT : ∀ tr ∈ trajectories, tr ≠ []) :
    ((m.encode trajectories).map some
        = trajectories.map fun tr => if m.extrap ≠ 0 then tr.getLast? else tr.head?) ∧
    m.forward odeint trajectories ti = m.forwardFrom odeint (m.encode trajectories) ti := by
  constructor
  · rw [NODE.encode]
    by_cases he : m.extrap ≠ 0
    · simp only [if_pos he, List.map_map]
      apply List.map_congr_left
      intro tr htr
      have hne : tr ≠ [] := hT tr htr
      have hsome : tr.getLast?.isSome := by
        cases tr with
        | nil => exact absurd rfl hne
        | cons x xs => simp [List.getLast?_isSome]
      obtain ⟨v, hv⟩ := Option.isSome_iff_exists.1 hsome
      simp [Function.comp, List.getLastD_eq_getLast?, hv]
    · simp only [if_neg he, List.map_map]
      apply List.map_congr_left
      intro tr htr
      have hne : tr ≠ [] := hT tr htr
      cases tr with
      | nil => exact absurd rfl hne
      | cons x xs => simp [Function.comp]
  · rfl

/-- Witness for C4 at a concrete two-timestep batch in extrapolation
mode. -/
theorem claim_C4_witness :
    (∀ tr ∈ ([[[(1 : ℚ)], [2]]] : List (List (List ℚ))), tr ≠ []) ∧
    (((NODE.mk (OdeFunc.init (fun x => x) zeroLinear zeroLinear zeroLinear)
          "euler" 0 1).encode [[[(1 : ℚ)], [2]]]).map some
        = [[[(1 : ℚ)], [2]]].map fun tr =>
            if (NODE.mk (OdeFunc.init (fun x => x) zeroLinear zeroLinear zeroLinear)
                "euler" 0 1).extrap ≠ 0 then tr.getLast? else tr.head?) ∧
    (NODE.mk (OdeFunc.init (fun x => x) zeroLinear zeroLinear zeroLinear)
        "euler" 0 1).forward seedOdeint [[[(1 : ℚ)], [2]]] [[0]]
      = (NODE.mk (OdeFunc.init (fun x => x) zeroLinear zeroLinear zeroLinear)
          "euler" 0 1).forwardFrom seedOdeint
          ((NODE.mk (OdeFunc.init (fun x => x) zeroLinear zeroLinear zeroLinear)
              "euler" 0 1).encode [[[(1 : ℚ)], [2]]]) [[0]] := by
  have h := claim_C4
    (NODE.mk (OdeFunc.init (fun x => x) zeroLinear zeroLinear zeroLinear) "euler" 0 1)
    seedOdeint [[[(1 : ℚ)], [2]]] [[0]] (by decide)
  exact ⟨by decide, h.1, h.2⟩

/-- Every channel row of the batch-major `transpose01` view of a
rectangular `(T, B, w)` tensor has width `w`. -/
theorem transpose01_row_length {out : List (List (List ℚ))} {T B w : Nat}
    (h : hasShape3 out T B w = true) :
    ∀ tr ∈ transpose01 out, ∀ row ∈ tr, row.length = w := by
  intro tr htr row hrow
  rw [transpose01] at htr
  rcases List.mem_map.1 htr with ⟨j, hj, rfl⟩
  rcases List.mem_map.1 hrow with ⟨tr', htr', rfl⟩
  simp only [hasShape3, Bool.and_eq_true, beq_iff_eq, List.all_eq_true] at h
  obtain ⟨hT, hAll⟩ := h
  have htr'B : tr'.length = B := ((hAll tr' htr').1)
  rw [List.mem_range] at hj
  cases out with
  | nil => cases htr'
  | cons t0 rest =>
    have ht0B : t0.length = B := (hAll t0 (by simp)).1
    simp only [List.headD_cons] at hj
    have hjtr' : j < tr'.length := by omega
    rw [List.getD_eq_getElem?_getD, List.getElem?_eq_getElem hjtr']
    exact ((hAll tr' htr').2) _ (List.getElem_mem hjtr')

/-- For a rectangular `(T, B, w)` tensor with at least one batch row, the
channel width `shape[2]` of the transposed view is `w`. -/
theorem dim3_transpose01 {out : List (List (List ℚ))} {T B w : Nat}
    (h : hasShape3 out T B w = true) (hB : 0 < (out.headD []).length) :
    dim3 (transpose01 out) = w := by
  cases out with
  | nil => simp at hB
  | cons t0 rest =>
    simp only [List.headD_cons] at hB
    simp only [hasShape3, Bool.and_eq_true, beq_iff_eq, List.all_eq_true] at h
    obtain ⟨hT, hAll⟩ := h
    obtain ⟨k, hk⟩ : ∃ k, t0.length = k + 1 := ⟨t0.length - 1, by omega⟩
    rw [transpose01, dim3]
    simp only [List.headD_cons, hk, List.range_succ_eq_map, List.map_cons, List.headD_cons]
    have h0 : 0 < t0.length := by omega
    rw [List.getD_eq_getElem?_getD, List.getElem?_eq_getElem h0]
    exact ((hAll t0 (by simp)).2) _ (List.getElem_mem h0)

/-- The `[:, :, : shape[2] - a]` trim after transposition only depends on
the tensor's channel width. -/
theorem slice_take_dim3 {out : List (List (List ℚ))} {T B w : Nat} (a : Nat)
    (h : hasShape3 out T B w = true) :
    ((transpose01 out).map fun tr => tr.map fun row =>
        row.take (dim3 (transpose01 out) - a))
      = (transpose01 out).map fun tr => tr.map fun row => row.take (w - a) := by
  rcases Nat.eq_zero_or_pos (out.headD []).length with hB | hB
  · have he : transpose01 out = [] := by
      rw [transpose01, hB]
      rfl
    rw [he]
    rfl
  · rw [dim3_transpose01 h hB]

/-- The `[:, :, shape[2] - a :]` trim after transposition only depends on
the tensor's channel width. -/
theorem slice_drop_dim3 {out : List (List (List ℚ))} {T B w : Nat} (a : Nat)
    (h : hasShape3 out T B w = true) :
    ((transpose01 out).map fun tr => tr.map fun row =>
        row.drop (dim3 (transpose01 out) - a))
      = (transpose01 out).map fun tr => tr.map fun row => row.drop (w - a) := by
  rcases Nat.eq_zero_or_pos (out.headD []).length with hB | hB
  · have he : transpose01 out = [] := by
      rw [transpose01, hB]
      rfl
    rw [he]
    rfl
  · rw [dim3_transpose01 h hB]

/--
**C1 (amended).** For a forward pass with `augment_dim = a > 0` over an
integrator output of channel width `state + a` (state = `D` for the plain
model, `L` for the latent one): the plain `NODE` trims the `a` augmented
channels from the back and keeps exactly the first `D` channels — the
non-augmented state positions — while `LatentNODE` keeps only the *last*
`a` channels, i.e. exactly the zero-initialised augmented positions,
dropping every state channel from the front.  (The original claim's "in
both variants the channels that remain are exactly the non-augmented state
channels" fails for `LatentNODE`; see the counterexample.) -/
theorem claim_C1 (mN : NODE) (mL : LatentNODE) (odeint : OdeInt)
    (trajs : List (List (List ℚ))) (ti : List (List ℚ)) (D L T B : Nat)
    (hN : hasShape3 (odeint (augmentBatch mN.augment_dim (mN.encode trajs)) ti.flatten)
        T B (D + mN.augment_dim) = true)
    (hL : hasShape3 (odeint (augmentBatch mL.augment_dim (mL.encoder.forward trajs)) ti.flatten)
        T B (L + mL.augment_dim) = true) :
    mN.forward odeint trajs ti
      = ((transpose01 (odeint (augmentBatch mN.augment_dim (mN.encode trajs)) ti.flatten)).map
          fun tr => tr.map fun row => row.take D) ∧
    mL.forward odeint trajs ti
      = ((transpose01 (odeint (augmentBatch mL.augment_dim (mL.encoder.forward trajs)) ti.flatten)).map
          fun tr => tr.map fun row => row.drop L) := by
  constructor
  · have e1 : mN.forward odeint trajs ti
        = ((transpose01 (odeint (augmentBatch mN.augment_dim (mN.encode trajs)) ti.flatten)).map
            fun tr => tr.map fun row =>
              row.take
                (dim3 (transpose01 (odeint (augmentBatch mN.augment_dim (mN.encode trajs))
                    ti.flatten)) - mN.augment_dim)) := rfl
    rw [e1, slice_take_dim3 mN.augment_dim hN, Nat.add_sub_cancel]
  · have e1 : mL.forward odeint trajs ti
        = ((transpose01 (odeint (augmentBatch mL.augment_dim (mL.encoder.forward trajs)) ti.flatten)).map
            fun tr => tr.map fun row =>
              row.drop
                (dim3 (transpose01 (odeint (augmentBatch mL.augment_dim (mL.encoder.forward trajs))
                    ti.flatten)) - mL.augment_dim)) := rfl
    rw [e1, slice_drop_dim3 mL.augment_dim hL, Nat.add_sub_cancel]

/-- Counterexample to C1 as stated: a `LatentNODE` with latent state `[5]`
and one augmented channel, integrated at the seed time only.  The
integrator row is `[5, 0]` (state first, zero-initialised augmented
channel after); the claim says the remaining channel is the non-augmented
state channel (`5`), but the code keeps the channel at the augmented
position (`0`). -/
theorem claim_C1_counterexample :
    LatentNODE.forward latentOneAug seedOdeint [[[(1 : ℚ)]]] [[0]] = [[[(0 : ℚ)]]] ∧
    ¬ LatentNODE.forward latentOneAug seedOdeint [[[(1 : ℚ)]]] [[0]] = [[[(5 : ℚ)]]] := by
  decide

/-- Witness for the amended C1 at a concrete one-channel batch. -/
theorem claim_C1_witness :
    (hasShape3 (seedOdeint (augmentBatch nodeOneAug.augment_dim
        (nodeOneAug.encode [[[(1 : ℚ)]]])) ([[(0 : ℚ)]] : List (List ℚ)).flatten)
      1 1 (1 + nodeOneAug.augment_dim) = true) ∧
    (hasShape3 (seedOdeint (augmentBatch latentOneAug.augment_dim
        (latentOneAug.encoder.forward [[[(1 : ℚ)]]])) ([[(0 : ℚ)]] : List (List ℚ)).flatten)
      1 1 (1 + latentOneAug.augment_dim) = true) ∧
    nodeOneAug.forward seedOdeint [[[(1 : ℚ)]]] [[(0 : ℚ)]]
      = ((transpose01 (seedOdeint (augmentBatch nodeOneAug.augment_dim
          (nodeOneAug.encode [[[(1 : ℚ)]]])) ([[(0 : ℚ)]] : List (List ℚ)).flatten)).map
          fun tr => tr.map fun row => row.take 1) ∧
    latentOneAug.forward seedOdeint [[[(1 : ℚ)]]] [[(0 : ℚ)]]
      = ((transpose01 (seedOdeint (augmentBatch latentOneAug.augment_dim
          (latentOneAug.encoder.forward [[[(1 : ℚ)]]])) ([[(0 : ℚ)]] : List (List ℚ)).flatten)).map
          fun tr => tr.map fun row => row.drop 1) := by
  have h := claim_C1 nodeOneAug latentOneAug seedOdeint [[[(1 : ℚ)]]] [[(0 : ℚ)]]
    1 1 1 1 (by decide) (by decide)
  exact ⟨by decide, by decide, h.1, h.2⟩

/--
**C5.** With `augment_dim = 0` the plain `NODE` forward pass is the
integration pipeline with no augmentation at all: no zero channels are
concatenated, the integrator runs on the unmodified `x0`, and the final
slice returns every channel unchanged.  But for `LatentNODE` the claim
fails: its slice `[:, :, shape[2] - 0 :]` is *empty*, so the forward pass
returns a zero-channel trajectory instead of the unaugmented trajectory —
the round-trip property the spec requires is violated by the code. -/
theorem claim_C5 :
    (∀ (m : NODE) (odeint : OdeInt) (trajs : List (List (List ℚ)))
        (ti : List (List ℚ)) (T B D : Nat),
        m.augment_dim = 0 →
        hasShape3 (odeint (m.encode trajs) ti.flatten) T B D = true →
        m.forward odeint trajs ti = transpose01 (odeint (m.encode trajs) ti.flatten)) ∧
    (LatentNODE.forward latentNoAug seedOdeint [[[(1 : ℚ)]]] [[0]] = [[[]]] ∧
     ¬ LatentNODE.forward latentNoAug seedOdeint [[[(1 : ℚ)]]] [[0]]
        = transpose01 (seedOdeint (latentNoAug.encoder.forward [[[(1 : ℚ)]]])
            ([[(0 : ℚ)]] : List (List ℚ)).flatten)) := by
  constructor
  · intro m odeint trajs ti T B D ha hshape
    have e1 : m.forward odeint trajs ti
        = ((transpose01 (odeint (augmentBatch m.augment_dim (m.encode trajs)) ti.flatten)).map
            fun tr => tr.map fun row =>
              row.take
                (dim3 (transpose01 (odeint (augmentBatch m.augment_dim (m.encode trajs))
                    ti.flatten)) - m.augment_dim)) := rfl
    have haug : augmentBatch m.augment_dim (m.encode trajs) = m.encode trajs := by
      rw [ha, augmentBatch]
      simp
    rw [e1, haug, slice_take_dim3 m.augment_dim hshape, ha, Nat.sub_zero]
    have hrows := transpose01_row_length hshape
    have hmap : ((transpose01 (odeint (m.encode trajs) ti.flatten)).map
        fun tr => tr.map fun row => row.take D)
        = (transpose01 (odeint (m.encode trajs) ti.flatten)).map id := by
      apply List.map_congr_left
      intro tr htr
      have : (tr.map fun row => row.take D) = tr.map id := by
        apply List.map_congr_left
        intro row hrow
        simp [List.take_of_length_le (le_of_eq (hrows tr htr row hrow))]
      simpa using this
    rw [hmap, List.map_id]
  · exact ⟨by decide, by decide⟩

/-- Witness for C5's universally quantified part at a concrete
one-channel batch with augmentation disabled. -/
theorem claim_C5_witness :
    ((NODE.mk (OdeFunc.init (fun x => x) zeroLinear zeroLinear zeroLinear)
        "euler" 0 0).augment_dim = 0) ∧
    (hasShape3 (seedOdeint ((NODE.mk (OdeFunc.init (fun x => x) zeroLinear zeroLinear
        zeroLinear) "euler" 0 0).encode [[[(1 : ℚ)]]]) ([[(0 : ℚ)]] : List (List ℚ)).flatten)
      1 1 1 = true) ∧
    (NODE.mk (OdeFunc.init (fun x => x) zeroLinear zeroLinear zeroLinear)
        "euler" 0 0).forward seedOdeint [[[(1 : ℚ)]]] [[(0 : ℚ)]]
      = transpose01 (seedOdeint ((NODE.mk (OdeFunc.init (fun x => x) zeroLinear zeroLinear
          zeroLinear) "euler" 0 0).encode [[[(1 : ℚ)]]]) ([[(0 : ℚ)]] : List (List ℚ)).flatten) := by
  refine ⟨by decide, by decide, ?_⟩
  exact claim_C5.1
    (NODE.mk (OdeFunc.init (fun x => x) zeroLinear zeroLinear zeroLinear) "euler" 0 0)
    seedOdeint [[[(1 : ℚ)]]] [[(0 : ℚ)]] 1 1 1 (by decide) (by decide)

theorem linspace_length (a b : ℚ) (steps : Nat) : (linspace a b steps).length = steps := by
  rw [linspace]
  split
  · next h => simp [h]
  · rw [List.length_map, List.length_range]

/-- The sine generator's trajectory tensor always has shape
`(trajectories_to_sample, 250 * num_pi, 1)`, for every `t_nsamples`
argument (which the source shadows immediately). -/
theorem sine_shape (sinq : ℚ → ℚ) (double : Bool) (n tns numPi : Nat) :
    hasShape3 (sine sinq double n tns numPi).trajectories n (250 * numPi) 1 = true := by
  rw [hasShape3, Bool.and_eq_true]
  constructor
  · simp only [sine, List.length_map, linspace_length, beq_iff_eq]
  · rw [List.all_eq_true]
    intro tr htr
    simp only [sine] at htr
    rcases List.mem_map.1 htr with ⟨row, hrow, rfl⟩
    rcases List.mem_map.1 hrow with ⟨x0, hx0, rfl⟩
    rw [Bool.and_eq_true]
    constructor
    · simp [List.length_map, linspace_length]
    · rw [List.all_eq_true]
      intro r hr
      rcases List.mem_map.1 hr with ⟨v, hv, rfl⟩
      rfl

/--
**C8.** The sine generator with `trajectories_to_sample = 10` and
`num_pi = 4` returns a trajectory tensor of shape `(10, 1000, 1)`, where
`T = int(t_nsamples_ref / 4 * num_pi) = 1000` is derived from `num_pi`
alone (the incoming `t_nsamples` argument is shadowed) — and in general
the tensor is `(n, 250 * num_pi, 1)` for every `t_nsamples` value, for any
nonzero trajectory count (for zero trajectories `torch.stack` raises). -/
theorem claim_C8 (sinq : ℚ → ℚ) (double : Bool) (t_nsamples : Nat) :
    hasShape3 (sine sinq double 10 t_nsamples 4).trajectories 10 1000 1 = true ∧
    (∀ (n tns numPi : Nat), 1 ≤ n →
      (sine sinq double n tns numPi).trajectories.length = n ∧
      ((sine sinq double n tns numPi).trajectories.all fun tr =>
          tr.length == 250 * numPi && tr.all fun row => row.length == 1) = true) := by
  constructor
  · have h := sine_shape sinq double 10 t_nsamples 4
    norm_num at h
    exact h
  · intro n tns numPi hn
    have h := sine_shape sinq double n tns numPi
    rw [hasShape3, Bool.and_eq_true] at h
    obtain ⟨h1, h2⟩ := h
    exact ⟨by simpa using h1, h2⟩

/-- Witness for C8's general part at `n = 2`, `num_pi = 1`. -/
theorem claim_C8_witness :
    1 ≤ 2 ∧
    ((sine (fun _ => 0) false 2 7 1).trajectories.length = 2 ∧
     ((sine (fun _ => 0) false 2 7 1).trajectories.all fun tr =>
        tr.length == 250 * 1 && tr.all fun row => row.length == 1) = true) :=
  ⟨by decide, (claim_C8 (fun _ => 0) false 7).2 2 7 1 (by decide)⟩

/-- Inversion for a successful `Except` bind. -/
theorem exceptBind_ok {α β : Type} {x : Except String α} {f : α → Except String β} {b : β}
    (h : x >>= f = Except.ok b) : ∃ v, x = Except.ok v ∧ f v = Except.ok b := by
  cases x with
  | error e => exact Except.noConfusion h
  | ok v => exact ⟨v, rfl, h⟩

/--
**C9.** Every batch dictionary produced by `collate_fn` has its `mode`
field equal to `"extrap"` and its `observed_mask`, `mask_predicted_data`
and `labels` fields equal to `None`; consequently, on batches with that
mode the ground-truth tensor returned by `GeneralNODE.predict` is always
the concatenation of `observed_data` and `data_to_predict` along the time
axis — the interp branch is never taken. -/
theorem claim_C9 :
    (∀ (data : List Sample) (b : Batch), collate_fn data = Except.ok b →
        b.mode = "extrap" ∧ b.observed_mask = none ∧ b.mask_predicted_data = none ∧
          b.labels = none) ∧
    (∀ (g : GeneralNODE) (odeint : OdeInt) (dl : List Batch),
        (∀ bb ∈ dl, bb.mode = "extrap") →
        (g.predict odeint dl).2 =
          (dl.map fun bb =>
            (bb.observed_data.zip bb.data_to_predict).map fun p => p.1 ++ p.2).flatten) := by
  constructor
  · intro data b h
    cases data with
    | nil => exact Except.noConfusion h
    | cons s rest =>
      obtain ⟨af, hst, hok⟩ := exceptBind_ok h
      have hb := Except.ok.inj hok
      rw [← hb]
      exact ⟨rfl, rfl, rfl, rfl⟩
  · intro g odeint dl hmode
    have e1 : (g.predict odeint dl).2
        = (dl.map fun batch =>
            if batch.mode = "extrap" then
              (batch.observed_data.zip batch.data_to_predict).map fun p => p.1 ++ p.2
            else batch.data_to_predict).flatten := rfl
    rw [e1]
    congr 1
    apply List.map_congr_left
    intro bb hbb
    rw [if_pos (hmode bb hbb)]

/-- Witness for C9 at a concrete one-sample batch. -/
theorem claim_C9_witness :
    collate_fn c9data = Except.ok c9batch ∧
    (c9batch.mode = "extrap" ∧ c9batch.observed_mask = none ∧
     c9batch.mask_predicted_data = none ∧ c9batch.labels = none) ∧
    (∀ bb ∈ [c9batch], bb.mode = "extrap") ∧
    ((GeneralNODE.init (fun x => x) zeroLinear zeroLinear zeroLinear).predict
        seedOdeint [c9batch]).2
      = ([c9batch].map fun bb =>
          (bb.observed_data.zip bb.data_to_predict).map fun p => p.1 ++ p.2).flatten := by
  have hc : collate_fn c9data = Except.ok c9batch := by rfl
  exact ⟨hc, claim_C9.1 c9data c9batch hc, by decide,
    claim_C9.2 (GeneralNODE.init (fun x => x) zeroLinear zeroLinear zeroLinear)
      seedOdeint [c9batch] (by decide)⟩

/--
**C10.** When the feature-role dictionary's `avail_fcst_feature` is `None`
(in particular whenever `add_external_feature` is false), every
`TimeSeriesDataset` sample carries the scalar NaN placeholder in the
available-forecasts slot, and `collate_fn` on such samples returns a batch
whose `available_forecasts` field is `None` (the NaN filter leaves zero
elements). -/
theorem claim_C10 (trajs : List (List (List ℚ))) (time_steps : List (List ℚ))
    (observe_steps avg_terms : Nat) (hist fcst : List Nat) (i : Nat)
    (data : List Sample) (b : Batch)
    (hdata : ∀ s ∈ data, s.avail = AvailSlot.scalarNan)
    (hcol : collate_fn data = Except.ok b) :
    ((TimeSeriesDataset.init trajs time_steps observe_steps avg_terms hist fcst
        none).getItem i).avail = AvailSlot.scalarNan ∧
    b.available_forecasts = none := by
  constructor
  · by_cases havg : 1 < avg_terms
    · rw [TimeSeriesDataset.init, if_pos havg]
      rfl
    · rw [TimeSeriesDataset.init, if_neg havg]
      rfl
  · cases data with
    | nil => exact Except.noConfusion hcol
    | cons s rest =>
      have hall : ((s :: rest).map (·.avail)).all AvailSlot.isNan = true := by
        rw [List.all_eq_true]
        intro x hx
        rcases List.mem_map.1 hx with ⟨sm, hsm, rfl⟩
        rw [hdata sm hsm]
        rfl
      have hst : stackAvail ((s :: rest).map (·.avail)) = Except.ok none := by
        rw [stackAvail, if_pos hall]
      obtain ⟨af, hst', hok⟩ := exceptBind_ok hcol
      rw [hst] at hst'
      have haf : (none : Option (List (List (List ℚ)))) = af := Except.ok.inj hst'
      have hb := Except.ok.inj hok
      rw [← hb, ← haf]

/-- Witness for C10 at a concrete dataset and sample list. -/
theorem claim_C10_witness :
    (∀ s ∈ c9data, s.avail = AvailSlot.scalarNan) ∧
    collate_fn c9data = Except.ok c9batch ∧
    ((TimeSeriesDataset.init [[[(1 : ℚ)]]] [[0]] 1 1 [0] [0] none).getItem 0).avail
      = AvailSlot.scalarNan ∧
    c9batch.available_forecasts = none := by
  have h := claim_C10 [[[(1 : ℚ)]]] [[0]] 1 1 [0] [0] 0 c9data c9batch
    (by decide) (by rfl)
  exact ⟨by decide, by rfl, h.1, h.2⟩

/-- Every loader built by `generate_data_set` has `shuffle=False`. -/
theorem generate_data_set_shuffle {env : Env} {a : GenArgs} {r : GenResult}
    (h : generate_data_set env a = Except.ok r) :
    r.dltrain.shuffle = false ∧ r.dlval.shuffle = false ∧ r.dltest.shuffle = false := by
  rw [generate_data_set] at h
  obtain ⟨raw, h1, h2⟩ := exceptBind_ok h
  obtain ⟨b, h3, h4⟩ := exceptBind_ok h2
  have hr := Except.ok.inj h4
  rw [← hr]
  exact ⟨rfl, rfl, rfl⟩

/-- A loader with `shuffle=False` yields the same batch sequence on every
epoch, whatever permutations the sampler would have drawn. -/
theorem epochBatches_shuffle_false {dl : DataLoader} (h : dl.shuffle = false)
    (p p' : List Nat) : dl.epochBatches p = dl.epochBatches p' := by
  rw [DataLoader.epochBatches, DataLoader.epochBatches, h]
  simp

/--
**C2 (amended).** The train trajectories are permuted *once*, when
`generate_data_set` builds the loaders (`rand_idx = torch.randperm(...)`),
and all three returned loaders are constructed with `shuffle=False` — so
every iteration over the train loader (and the val/test loaders) yields
the trajectories in the same fixed order, whatever fresh permutations `p`,
`p'` the two epochs' samplers would have drawn.  (The original claim's
"freshly shuffled indices per epoch / different orders on successive
iterations" is refuted by the counterexample.) -/
theorem claim_C2 (env : Env) (a : GenArgs) (p p' : List Nat) :
    ((generate_data_set env a).toOption.map fun r => r.dltrain.epochBatches p)
      = ((generate_data_set env a).toOption.map fun r => r.dltrain.epochBatches p') ∧
    ((generate_data_set env a).toOption.map fun r => r.dlval.epochBatches p)
      = ((generate_data_set env a).toOption.map fun r => r.dlval.epochBatches p') ∧
    ((generate_data_set env a).toOption.map fun r => r.dltest.epochBatches p)
      = ((generate_data_set env a).toOption.map fun r => r.dltest.epochBatches p') ∧
    ((generate_data_set env a).toOption.map fun r =>
        (r.dltrain.shuffle, r.dlval.shuffle, r.dltest.shuffle))
      = ((generate_data_set env a).toOption.map fun _ => (false, false, false)) := by
  cases hgen : generate_data_set env a with
  | error e => simp [Except.toOption]
  | ok r =>
    obtain ⟨ht, hv, hs⟩ := generate_data_set_shuffle hgen
    simp [Except.toOption, epochBatches_shuffle_false ht p p',
      epochBatches_shuffle_false hv p p', epochBatches_shuffle_false hs p p', ht, hv, hs]

set_option maxRecDepth 100000 in
/-- Counterexample to C2 as stated: a concrete `generate_data_set` run
(tiny `mfred` CSV, 3 windowed trajectories, so 2 land in train with one
sample per batch) in which two successive iterations over the returned
train loader — with two *different* fresh sampler permutations — yield
exactly the same batch sequence, even though the two train samples are
distinguishable. -/
theorem claim_C2_counterexample :
    ((generate_data_set c2env c2args).toOption.map fun r => r.dltrain.epochBatches [0, 1])
      = ((generate_data_set c2env c2args).toOption.map fun r => r.dltrain.epochBatches [1, 0]) ∧
    ([0, 1] : List Nat) ≠ [1, 0] ∧
    ((generate_data_set c2env c2args).toOption.map fun r => r.dltrain.dataset.length)
      = some 2 ∧
    ((generate_data_set c2env c2args).toOption.map fun r =>
        decide (r.dltrain.dataset.getD 0 ⟨[], [], AvailSlot.scalarNan, [], []⟩
          = r.dltrain.dataset.getD 1 ⟨[], [], AvailSlot.scalarNan, [], []⟩))
      = some false := by
  refine ⟨?_, by decide, by decide, by decide⟩
  cases hgen : generate_data_set c2env c2args with
  | error e => simp [Except.toOption]
  | ok r =>
    obtain ⟨ht, _, _⟩ := generate_data_set_shuffle hgen
    simp only [Except.toOption, Option.map_some']
    rw [epochBatches_shuffle_false ht [0, 1] [1, 0]]
